import Mathlib

/-!
Shallow embedding of the call-management component of the voice-agent dashboard
(the CallTrigger React component). Each definition notes the source function it
translates. Machine strings are modelled as Lean strings, JavaScript objects as
ordered association lists, and the JSON values handled by JSON.parse as an
inductive type. Timers and network requests are modelled by explicit state
passing and request traces.
-/

namespace VoiceAgent

/-- Prefix test on character lists, modelling the JavaScript string method
startsWith applied to the underlying character sequences. -/
def listStartsWith : List Char → List Char → Bool
  | _, [] => true
  | [], _ :: _ => false
  | c :: cs, p :: ps => c == p && listStartsWith cs ps

/-- The digit filtering step of formatPhoneNumber: the JavaScript
replace of every non-digit character by the empty string. -/
def digitsOf (s : String) : List Char :=
  s.toList.filter (fun c => c.isDigit)

/-- Branching of formatPhoneNumber on the digit list (source lines 34-52 of the
call-trigger component): country-code passthrough, 03-prefixed eleven-digit
numbers, ten-digit numbers starting with 3, generic plus prefix, empty. -/
def fmtDigits (d : List Char) : List Char :=
  if listStartsWith d ['9', '2'] then '+' :: d
  else if listStartsWith d ['0', '3'] && d.length == 11 then '+' :: '9' :: '2' :: d.tail
  else if d.length == 10 && listStartsWith d ['3'] then '+' :: '9' :: '2' :: d
  else if !d.isEmpty then '+' :: d
  else []

/-- formatPhoneNumber from the source: strip non-digits, then apply the
branching above. -/
def formatPhoneNumber (s : String) : String :=
  String.mk (fmtDigits (digitsOf s))

/-- The phone-normalization algorithm as worded by the spec, written from its
five numbered steps (strip non-digits; 92 prefix passthrough; drop the leading
0 of an eleven-digit 03 number and prefix +92; prefix +92 to a ten-digit number
starting with 3; plus prefix when non-empty; empty otherwise). Used only to
compare the source algorithm against the spec text. -/
def normalizeSpec (raw : String) : String :=
  let digits := raw.toList.filter (fun c => c.isDigit)
  if listStartsWith digits ['9', '2'] then String.mk ('+' :: digits)
  else if listStartsWith digits ['0', '3'] && digits.length == 11 then
    String.mk ('+' :: '9' :: '2' :: digits.drop 1)
  else if digits.length == 10 && listStartsWith digits ['3'] then
    String.mk ('+' :: '9' :: '2' :: digits)
  else if !digits.isEmpty then String.mk ('+' :: digits)
  else ""

/-! JSON values and a model of JSON.parse. The transcript formatter hands the
parsed value through unchanged when it is an array, so the embedding needs a
value type for arbitrary JSON data. A number is kept as its lexeme, since the
formatter never does arithmetic on parsed numbers. -/

inductive Json where
  | null : Json
  | bool (b : Bool) : Json
  | num (lexeme : String) : Json
  | str (s : String) : Json
  | arr (items : List Json) : Json
  | obj (fields : List (String × Json)) : Json

/-- JSON insignificant whitespace characters. -/
def jsonWs (c : Char) : Bool :=
  c == ' ' || c == '\t' || c == '\n' || c == '\r'

/-- Drop leading JSON whitespace. -/
def skipWs : List Char → List Char
  | [] => []
  | c :: rest => if jsonWs c then skipWs rest else c :: rest

/-- Value of one hexadecimal digit. -/
def hexDigitVal (c : Char) : Option Nat :=
  if '0' ≤ c ∧ c ≤ '9' then some (c.toNat - '0'.toNat)
  else if 'a' ≤ c ∧ c ≤ 'f' then some (c.toNat - 'a'.toNat + 10)
  else if 'A' ≤ c ∧ c ≤ 'F' then some (c.toNat - 'A'.toNat + 10)
  else none

/-- Single-character JSON string escapes. -/
def escapeChar (c : Char) : Option Char :=
  if c = '"' then some '"'
  else if c = '\\' then some '\\'
  else if c = '/' then some '/'
  else if c = 'b' then some '\x08'
  else if c = 'f' then some '\x0c'
  else if c = 'n' then some '\n'
  else if c = 'r' then some '\r'
  else if c = 't' then some '\t'
  else none

/-- Body of a JSON string literal, after the opening quote. Returns the decoded
string and the remaining input. Control characters and unknown escapes are
rejected, as JSON.parse rejects them. -/
def parseStringBody : List Char → List Char → Option (String × List Char)
  | acc, '"' :: rest => some (String.mk acc.reverse, rest)
  | acc, '\\' :: 'u' :: a :: b :: c :: d :: rest =>
    match hexDigitVal a, hexDigitVal b, hexDigitVal c, hexDigitVal d with
    | some ha, some hb, some hc, some hd =>
      parseStringBody (Char.ofNat (((ha * 16 + hb) * 16 + hc) * 16 + hd) :: acc) rest
    | _, _, _, _ => none
  | acc, '\\' :: e :: rest =>
    match escapeChar e with
    | some ec => parseStringBody (ec :: acc) rest
    | none => none
  | _, '\\' :: [] => none
  | acc, c :: rest => if c.toNat < 32 then none else parseStringBody (c :: acc) rest
  | _, [] => none

/-- Longest leading run of decimal digits. -/
def digitSpan : List Char → List Char × List Char
  | [] => ([], [])
  | c :: rest =>
    if c.isDigit then
      ((digitSpan rest).1.cons c, (digitSpan rest).2)
    else ([], c :: rest)

/-- Optional exponent part of a JSON number; takes the lexeme collected so far. -/
def parseExpPart (lex : List Char) (cs : List Char) : Option (List Char × List Char) :=
  match cs with
  | c :: rest =>
    if c = 'e' ∨ c = 'E' then
      match rest with
      | s :: r2 =>
        if s = '+' ∨ s = '-' then
          if (digitSpan r2).1.isEmpty then none
          else some (lex ++ c :: s :: (digitSpan r2).1, (digitSpan r2).2)
        else
          if (digitSpan rest).1.isEmpty then none
          else some (lex ++ c :: (digitSpan rest).1, (digitSpan rest).2)
      | [] => none
    else some (lex, cs)
  | [] => some (lex, [])

/-- Integer-and-fraction part of a JSON number, after an optional minus sign.
Leading zeros are rejected as in the JSON grammar. -/
def parseNumTail (cs : List Char) : Option (List Char × List Char) :=
  match cs with
  | [] => none
  | c :: _ =>
    if c.isDigit then
      if 1 < (digitSpan cs).1.length ∧ (digitSpan cs).1.head? = some '0' then none
      else
        match (digitSpan cs).2 with
        | '.' :: r2 =>
          if (digitSpan r2).1.isEmpty then none
          else parseExpPart ((digitSpan cs).1 ++ '.' :: (digitSpan r2).1) (digitSpan r2).2
        | r1 => parseExpPart (digitSpan cs).1 r1
    else none

/-- A JSON number lexeme with optional leading minus. -/
def parseNum (cs : List Char) : Option (String × List Char) :=
  match cs with
  | '-' :: rest =>
    match parseNumTail rest with
    | some (l, r) => some (String.mk ('-' :: l), r)
    | none => none
  | _ =>
    match parseNumTail cs with
    | some (l, r) => some (String.mk l, r)
    | none => none

mutual

/-- Recursive-descent JSON value, fuelled by a step budget that each nested
value consumes. Models the grammar accepted by JSON.parse. -/
def parseVal : Nat → List Char → Option (Json × List Char)
  | 0, _ => none
  | fuel + 1, cs =>
    match skipWs cs with
    | [] => none
    | '"' :: rest =>
      match parseStringBody [] rest with
      | some (s, r) => some (Json.str s, r)
      | none => none
    | '[' :: rest =>
      match skipWs rest with
      | ']' :: r2 => some (Json.arr [], r2)
      | cs2 =>
        match parseVal fuel cs2 with
        | some (v, r2) =>
          match parseArrRest fuel r2 with
          | some (vs, r3) => some (Json.arr (v :: vs), r3)
          | none => none
        | none => none
    | '\x7b' :: rest =>
      match skipWs rest with
      | '\x7d' :: r2 => some (Json.obj [], r2)
      | '"' :: r2 =>
        match parseStringBody [] r2 with
        | some (k, r3) =>
          match skipWs r3 with
          | ':' :: r4 =>
            match parseVal fuel r4 with
            | some (v, r5) =>
              match parseObjRest fuel r5 with
              | some (kvs, r6) => some (Json.obj ((k, v) :: kvs), r6)
              | none => none
            | none => none
          | _ => none
        | none => none
      | _ => none
    | 't' :: rest =>
      if listStartsWith rest ['r', 'u', 'e'] then some (Json.bool true, rest.drop 3) else none
    | 'f' :: rest =>
      if listStartsWith rest ['a', 'l', 's', 'e'] then some (Json.bool false, rest.drop 4) else none
    | 'n' :: rest =>
      if listStartsWith rest ['u', 'l', 'l'] then some (Json.null, rest.drop 3) else none
    | cs1 =>
      match parseNum cs1 with
      | some (s, r) => some (Json.num s, r)
      | none => none

/-- Remaining elements of a JSON array after the first element. -/
def parseArrRest : Nat → List Char → Option (List Json × List Char)
  | 0, _ => none
  | fuel + 1, cs =>
    match skipWs cs with
    | ']' :: r => some ([], r)
    | ',' :: r =>
      match parseVal fuel r with
      | some (v, r2) =>
        match parseArrRest fuel r2 with
        | some (vs, r3) => some (v :: vs, r3)
        | none => none
      | none => none
    | _ => none

/-- Remaining members of a JSON object after the first member. -/
def parseObjRest : Nat → List Char → Option (List (String × Json) × List Char)
  | 0, _ => none
  | fuel + 1, cs =>
    match skipWs cs with
    | '\x7d' :: r => some ([], r)
    | ',' :: r =>
      match skipWs r with
      | '"' :: r2 =>
        match parseStringBody [] r2 with
        | some (k, r3) =>
          match skipWs r3 with
          | ':' :: r4 =>
            match parseVal fuel r4 with
            | some (v, r5) =>
              match parseObjRest fuel r5 with
              | some (kvs, r6) => some ((k, v) :: kvs, r6)
              | none => none
            | none => none
          | _ => none
        | none => none
      | _ => none
    | _ => none

end

/-- JSON.parse applied to a whole string: one value, then only trailing
whitespace. The fuel bound exceeds the nesting depth any input can reach. -/
def jsonParse (s : String) : Option Json :=
  match parseVal (s.toList.length + 1) s.toList with
  | some (v, rest) => if (skipWs rest).isEmpty then some v else none
  | none => none

/-! The transcript formatter (source lines 256-302). -/

/-- JavaScript whitespace as used by trim and by a backslash-s regex class,
restricted to the ASCII range that can occur here. -/
def jsWsChar (c : Char) : Bool :=
  c == ' ' || c == '\t' || c == '\n' || c == '\r' || c == '\x0b' || c == '\x0c'

/-- The JavaScript string method trim. -/
def jsTrim (s : String) : String :=
  String.mk (((s.toList.dropWhile jsWsChar).reverse.dropWhile jsWsChar).reverse)

/-- First character test, modelling startsWith with a one-character pattern. -/
def jsStartsWith (s : String) (c : Char) : Bool :=
  match s.toList with
  | [] => false
  | c0 :: _ => c0 == c

/-- The JavaScript string method split on a newline separator. -/
def splitOnNl : List Char → List (List Char)
  | [] => [[]]
  | c :: rest =>
    if c = '\n' then [] :: splitOnNl rest
    else
      match splitOnNl rest with
      | h :: t => (c :: h) :: t
      | [] => [[c]]

/-- Lines of the raw transcript, as split('\n') produces them. -/
def splitLines (s : String) : List String :=
  (splitOnNl s.toList).map String.mk

/-- A TranscriptEntry object with the given speaker and message, as the
JavaScript object literal with those two fields. -/
def transcriptEntry (speaker message : String) : Json :=
  Json.obj [("speaker", Json.str speaker), ("message", Json.str message)]

/-- The fixed placeholder shown while no transcript exists. -/
def notAvailableMsg : String :=
  "Transcript not available yet. It may take a few minutes to process."

/-- One alternative of the speaker regex: a case-insensitive label, a colon,
optional whitespace, then a non-empty message. Returns the label as written in
the input together with the message. -/
def trySpeaker (cs : List Char) (label : List Char) : Option (String × String) :=
  if listStartsWith (cs.map Char.toLower) ((label.map Char.toLower) ++ [':']) then
    match (cs.drop (label.length + 1)).dropWhile jsWsChar with
    | [] => none
    | m => some (String.mk (cs.take label.length), String.mk m)
  else none

/-- The speaker-detection regex of the formatter, alternatives in source
order. -/
def matchSpeaker (line : String) : Option (String × String) :=
  [['A','g','e','n','t'], ['D','r','i','v','e','r'],
   ['A','s','s','i','s','t','a','n','t'], ['U','s','e','r'],
   ['H','u','m','a','n']].findSome? (trySpeaker line.toList)

/-- Per-line accumulation of the freeform branch: skip blank lines, emit a
speaker entry on a regex match, otherwise a System entry with the line. -/
def freeformStep (acc : List Json) (line : String) : List Json :=
  if jsTrim line == "" then acc
  else
    match matchSpeaker (jsTrim line) with
    | some (sp, msg) => acc ++ [transcriptEntry sp msg]
    | none => acc ++ [transcriptEntry "System" (jsTrim line)]

/-- Entries the freeform branch collects over all lines. -/
def freeformEntries (raw : String) : List Json :=
  (splitLines raw).foldl freeformStep []

/-- The freeform-text branch of formatTranscript: if no line produced an entry,
fall back to the whole raw text under System. -/
def freeformTranscript (raw : String) : List Json :=
  if 0 < (freeformEntries raw).length then freeformEntries raw
  else [transcriptEntry "System" raw]

/-- Outcome of the structured branch, given the JSON.parse result: an array is
returned verbatim, any other parsed value falls through to the freeform branch,
and a parse exception is caught and rendered as a System entry holding the raw
input (or the fixed error text when the raw input is empty). -/
def structuredBranch (raw : String) : Option Json → List Json
  | some (Json.arr parsed) => parsed
  | some _ => freeformTranscript raw
  | none =>
    [transcriptEntry "System" (if raw == "" then "Transcript processing error" else raw)]

/-- formatTranscript from the source: a missing or empty transcript yields the
fixed placeholder entry; input whose first character is a bracket or brace is
parsed as JSON; everything else takes the freeform branch. -/
def formatTranscript : Option String → List Json
  | none => [transcriptEntry "System" notAvailableMsg]
  | some raw =>
    if raw == "" then [transcriptEntry "System" notAvailableMsg]
    else if jsStartsWith raw '[' || jsStartsWith raw '\x7b' then
      structuredBranch raw (jsonParse raw)
    else freeformTranscript raw

/-! Key-information assembly (source lines 165-254). JavaScript objects are
modelled as ordered association lists, and property assignment as an update
that replaces the value of an existing key in place or appends a new key. -/

/-- Driver information held by the component while a call runs. -/
structure DriverInfo where
  name : String
  phone : String
  loadNumber : String

/-- The processed-transcript payload returned by the transcript endpoint. -/
structure ProcessedTranscript where
  summary : Option String
  sentiment : Option String
  key_points : Option (List String)

/-- The call-detail payload returned by the calls endpoint. Timestamps are kept
as the ISO strings the backend sends. -/
structure CallData where
  status : Option String
  started_at : Option String
  ended_at : Option String
  call_analysis : Option (List (String × Json))
  raw_transcript : Option String

/-- The display record the component assembles (formattedResults and the
degraded fallback in fetchCallResults, source lines 183-210). -/
structure CallResult where
  callId : String
  status : String
  duration : String
  timestamp : Option String
  keyInformation : List (String × Json)
  transcript : List Json
  accessToken : Option String
  rawCallData : Option CallData
  processedTranscript : Option ProcessedTranscript

/-- JavaScript property assignment on an object in insertion order: an
existing key keeps its position and gets the new value, a new key is
appended. -/
def setKey : List (String × Json) → String → Json → List (String × Json)
  | [], k, v => [(k, v)]
  | p :: rest, k, v => if p.1 == k then (k, v) :: rest else p :: setKey rest k v

/-- Key membership in a modelled object. -/
def hasKey (m : List (String × Json)) (q : String) : Bool :=
  m.any (fun p => p.1 == q)

/-- Property read on a modelled object. -/
def jsGet (m : List (String × Json)) (q : String) : Option Json :=
  (m.find? (fun p => p.1 == q)).map (fun p => p.2)

/-- JavaScript or-else on a possibly missing string, where the empty string is
falsy. -/
def jsOrStr (o : Option String) (d : String) : String :=
  match o with
  | some s => if s == "" then d else s
  | none => d

/-- JavaScript or-else between two possibly missing strings. -/
def jsOrOptStr : Option String → Option String → Option String
  | some s, b => if s == "" then b else some s
  | none, b => b

/-- The key-points join: optional chaining of join with a None fallback, where
an empty join result is falsy. -/
def joinKeyPoints (o : Option (List String)) : String :=
  match o with
  | some l => if String.intercalate ", " l == "" then "None" else String.intercalate ", " l
  | none => "None"

/-- Word characters of the JavaScript regex class backslash-w. -/
def isWordChar (c : Char) : Bool :=
  c.isAlphanum || c == '_'

/-- Uppercase every word character that sits at a word boundary, carrying
whether the previous character was a word character. -/
def upcaseAtBounds : List Char → Bool → List Char
  | [], _ => []
  | c :: rest, prevWord =>
    (if isWordChar c && !prevWord then c.toUpper else c) :: upcaseAtBounds rest (isWordChar c)

/-- The analysis-key transformation of the source: underscores to spaces, then
uppercase at word boundaries. -/
def titleCaseKey (k : String) : String :=
  String.mk (upcaseAtBounds (k.toList.map (fun c => if c = '_' then ' ' else c)) false)

/-- The typeof test of the source: keep only string and number analysis
values. -/
def isPrimitive : Json → Bool
  | Json.str _ => true
  | Json.num _ => true
  | _ => false

/-- Step 1 of extractKeyInformation: summary, sentiment and key points from
the processed transcript, when present (source lines 229-233). -/
def transcriptStep : Option ProcessedTranscript → List (String × Json) → List (String × Json)
  | none, m => m
  | some pt, m =>
    setKey (setKey (setKey m "Call Summary" (Json.str (jsOrStr pt.summary "No summary available")))
        "Sentiment" (Json.str (jsOrStr pt.sentiment "Unknown")))
      "Key Points" (Json.str (joinKeyPoints pt.key_points))

/-- Step 2 of extractKeyInformation: every primitive analysis entry under its
title-cased key, in analysis iteration order (source lines 235-242). -/
def analysisStep : Option (List (String × Json)) → List (String × Json) → List (String × Json)
  | none, m => m
  | some ca, m =>
    ca.foldl (fun acc kv => if isPrimitive kv.2 then setKey acc (titleCaseKey kv.1) kv.2 else acc) m

/-- Step 3 of extractKeyInformation: driver name, load number and phone number
written last (source lines 245-247). -/
def driverStep (d : DriverInfo) (m : List (String × Json)) : List (String × Json) :=
  setKey (setKey (setKey m "Driver Name" (Json.str d.name))
      "Load Number" (Json.str d.loadNumber))
    "Phone Number" (Json.str d.phone)

/-- The minimal fallback map of the source (lines 249-253), used when the
assembled map is empty. -/
def fallbackKeyInfo (d : DriverInfo) : List (String × Json) :=
  [("Driver Name", Json.str d.name), ("Load Number", Json.str d.loadNumber),
   ("Call Status", Json.str "Completed")]

/-- extractKeyInformation from the source: transcript step, then analysis
step, then driver step, then the emptiness check. -/
def extractKeyInformation (ca : Option (List (String × Json)))
    (pt : Option ProcessedTranscript) (d : DriverInfo) : List (String × Json) :=
  if 0 < (driverStep d (analysisStep ca (transcriptStep pt []))).length then
    driverStep d (analysisStep ca (transcriptStep pt []))
  else fallbackKeyInfo d

/-- Left pad with zeros to width two, as padStart(2, zero) does. -/
def padTwoZeros (s : String) : String :=
  if 2 ≤ s.length then s else String.mk (List.replicate (2 - s.length) '0') ++ s

/-- Truthiness of a possibly missing string in JavaScript. -/
def jsFalsyStr : Option String → Bool
  | none => true
  | some s => s == ""

/-- calculateDuration from the source (lines 214-224). Date parsing of the ISO
strings is abstracted by the environment function dateMs giving epoch
milliseconds; floor division and the sign-of-dividend remainder match the
JavaScript operators used. -/
def calculateDuration (dateMs : String → Int) (startTime endTime : Option String) : String :=
  if jsFalsyStr startTime || jsFalsyStr endTime then "Unknown"
  else
    toString (Int.fdiv (dateMs (endTime.getD "") - dateMs (startTime.getD "")) 60000) ++ ":" ++
      padTwoZeros (toString (Int.fdiv
        (Int.tmod (dateMs (endTime.getD "") - dateMs (startTime.getD "")) 60000) 1000))

/-- fetchCallResults from the source (lines 165-212), as a function of the two
backend responses: a present detail response yields the assembled record, a
failed detail fetch yields the degraded record built in the catch block. The
transcript response is independent and optional. nowIso stands for the
current-time ISO string used by the degraded record. -/
def fetchCallResults (dateMs : String → Int) (nowIso : String) (callId : String)
    (d : DriverInfo) (detailResp : Option CallData)
    (transcriptResp : Option ProcessedTranscript) : CallResult :=
  match detailResp with
  | some callData =>
    { callId := callId
      status := jsOrStr callData.status "completed"
      duration := calculateDuration dateMs callData.started_at callData.ended_at
      timestamp := jsOrOptStr callData.ended_at callData.started_at
      keyInformation := extractKeyInformation callData.call_analysis transcriptResp d
      transcript := formatTranscript callData.raw_transcript
      accessToken := none
      rawCallData := some callData
      processedTranscript := transcriptResp }
  | none =>
    { callId := callId
      status := "completed"
      duration := "Unknown"
      timestamp := some nowIso
      keyInformation := [("Call Status", Json.str "Completed"),
        ("Error", Json.str "Unable to fetch detailed results")]
      transcript := [transcriptEntry "System" "Transcript not available"]
      accessToken := none
      rawCallData := none
      processedTranscript := none }

/-- Concrete driver information used by the concrete-input theorems. -/
def driverAlice : DriverInfo :=
  { name := "Alice", phone := "+923001234567", loadNumber := "LD-7" }

/-- Concrete processed transcript with a positive sentiment. -/
def ptPositive : ProcessedTranscript :=
  { summary := some "All good", sentiment := some "Positive", key_points := some ["on time"] }

/-- Concrete call analysis whose sentiment field collides with the transcript
sentiment key after title casing. -/
def caNegative : List (String × Json) :=
  [("sentiment", Json.str "Negative")]

/-! The poll loop of pollForCallCompletion (source lines 129-163) and the
timer bookkeeping of startTestCall (source lines 54-127). -/

/-- Attempt ceiling of the poll loop (source line 130). -/
def maxAttempts : Nat := 60

/-- Interval of the poll timer in milliseconds (source line 162). -/
def pollIntervalMs : Nat := 5000

/-- Terminal call statuses, treated identically (source lines 141 and 319). -/
def isTerminalStatus (s : String) : Bool :=
  s == "completed" || s == "ended"

/-- One run of the poll interval from a given attempt count, driven by a
status oracle giving the response of the status request at tick t (none models
a request or decode failure, which the source catches: such a tick fetches
nothing and the loop continues unless the ceiling is reached). Returns the
number of ticks that fired a status check and the number of fetchCallResults
calls performed. The fuel argument is the remaining tick budget. -/
def pollGo (status : Nat → Option String) : Nat → Nat → Nat × Nat
  | _, 0 => (0, 0)
  | attempts, fuel + 1 =>
    match status (attempts + 1) with
    | some s =>
      if isTerminalStatus s then (1, 1)
      else if maxAttempts ≤ attempts + 1 then (1, 1)
      else ((pollGo status (attempts + 1) fuel).1 + 1, (pollGo status (attempts + 1) fuel).2)
    | none =>
      if maxAttempts ≤ attempts + 1 then (1, 0)
      else ((pollGo status (attempts + 1) fuel).1 + 1, (pollGo status (attempts + 1) fuel).2)

/-- pollForCallCompletion: the interval starts at zero attempts with a budget
of maxAttempts ticks, within which the loop always stops. -/
def pollForCallCompletion (status : Nat → Option String) : Nat × Nat :=
  pollGo status 0 maxAttempts

/-- One scheduled poll loop: its call id, current attempt count, and whether
its interval has been cleared. -/
structure PollLoop where
  callId : String
  attempts : Nat
  cleared : Bool

/-- Timers of one call-management session: the poll loops scheduled so far, in
creation order. -/
structure SessionTimers where
  loops : List PollLoop

/-- Timer effect of a successful startTestCall (source lines 54-127): it
schedules pollForCallCompletion for the new call id via setTimeout, stores no
timer handle in component state, and contains no clearTimeout or clearInterval
call, so every previously scheduled loop is left as it was. -/
def startCallStep (s : SessionTimers) (newId : String) : SessionTimers :=
  { loops := s.loops ++ [{ callId := newId, attempts := 0, cleared := false }] }

/-- One interval tick of loop i under backend status st (source lines
133-162): a cleared interval no longer fires; otherwise the tick performs one
status request for its own call id and clears its own local interval handle
exactly when the status is terminal or the attempt ceiling is reached. Returns
the updated session and the call id whose status was requested, if any. -/
def tickStep (s : SessionTimers) (i : Nat) (st : String) : SessionTimers × Option String :=
  match s.loops[i]? with
  | none => (s, none)
  | some loop =>
    if loop.cleared then (s, none)
    else
      ({ loops := s.loops.set i
          { loop with
            attempts := loop.attempts + 1
            cleared := (isTerminalStatus st || decide (maxAttempts ≤ loop.attempts + 1)) } },
        some loop.callId)

/-! Manual fetch (source lines 304-338). -/

/-- Requests that manualFetchResults and fetchCallResults can issue. -/
inductive Request where
  | statusReq (id : String)
  | detailReq (id : String)
  | transcriptReq (id : String)

/-- What manualFetchResults reports to the user. -/
inductive ManualFetchOutcome where
  | noCallId
  | fetched (id : String)
  | stillActive (id status : String)
  | statusCheckFailed (id : String)

/-- The id a manual fetch operates on (source line 305): the trimmed manual
field when non-empty, otherwise the last-started call id, which is the empty
string when no call was started. -/
def callIdToFetch (manualCallId currentCallId : String) : String :=
  if jsTrim manualCallId == "" then currentCallId else jsTrim manualCallId

/-- Continuation of a manual fetch once the status response for the selected
id is known: a failed status request is caught and reported; a terminal status
triggers fetchCallResults, whose request trace is one detail request followed
by a transcript request when the detail fetch succeeded; a non-terminal status
only reports that the call is still active. -/
def manualFetchAfterStatus (id : String) (detailOk : String → Bool) :
    Option String → List Request × ManualFetchOutcome
  | none => ([Request.statusReq id], ManualFetchOutcome.statusCheckFailed id)
  | some st =>
    if isTerminalStatus st then
      (Request.statusReq id :: Request.detailReq id ::
        (if detailOk id then [Request.transcriptReq id] else []),
       ManualFetchOutcome.fetched id)
    else ([Request.statusReq id], ManualFetchOutcome.stillActive id st)

/-- manualFetchResults (source lines 304-338), as the list of requests issued
and the reported outcome. -/
def manualFetchResults (manualCallId currentCallId : String)
    (statusOf : String → Option String) (detailOk : String → Bool) :
    List Request × ManualFetchOutcome :=
  if callIdToFetch manualCallId currentCallId == "" then
    ([], ManualFetchOutcome.noCallId)
  else
    manualFetchAfterStatus (callIdToFetch manualCallId currentCallId) detailOk
      (statusOf (callIdToFetch manualCallId currentCallId))

theorem neTrueOfFalse {b : Bool} (h : b = false) : ¬ b = true := by
  rw [h]; exact Bool.false_ne_true

theorem fmtDigits_idem (d : List Char) (h : ∀ c ∈ d, c.isDigit = true) :
    fmtDigits ((fmtDigits d).filter (fun c => c.isDigit)) = fmtDigits d := by
  have hplus : ('+' : Char).isDigit = false := by decide
  have hfd : d.filter (fun c => c.isDigit) = d := List.filter_eq_self.mpr h
  cases h1 : listStartsWith d ['9', '2'] with
  | true =>
    have e1 : fmtDigits d = '+' :: d := by rw [fmtDigits, if_pos h1]
    rw [e1]
    have e2 : (('+' :: d).filter (fun c => c.isDigit)) = d := by
      simp [List.filter_cons, hplus, hfd]
    rw [e2, e1]
  | false =>
    cases h2 : (listStartsWith d ['0', '3'] && d.length == 11) with
    | true =>
      obtain ⟨t, rfl⟩ : ∃ t, d = '0' :: '3' :: t := by
        rcases d with _ | ⟨c1, _ | ⟨c2, t⟩⟩
        · simp [listStartsWith] at h2
        · simp [listStartsWith] at h2
        · simp [listStartsWith] at h2
          exact ⟨t, by rw [h2.1.1, h2.1.2]⟩
      have ht : ∀ c ∈ t, c.isDigit = true := fun c hc =>
        h c (List.mem_cons_of_mem _ (List.mem_cons_of_mem _ hc))
      have e1 : fmtDigits ('0' :: '3' :: t) = '+' :: '9' :: '2' :: '3' :: t := by
        rw [fmtDigits, if_neg (neTrueOfFalse h1), if_pos h2]; rfl
      rw [e1]
      have e2 : (('+' :: '9' :: '2' :: '3' :: t).filter (fun c => c.isDigit)) =
          '9' :: '2' :: '3' :: t := by
        simp [List.filter_cons, List.filter_eq_self.mpr ht]
      rw [e2]
      rw [fmtDigits, if_pos (show listStartsWith ('9' :: '2' :: '3' :: t) ['9', '2'] = true by
        simp [listStartsWith])]
    | false =>
      cases h3 : (d.length == 10 && listStartsWith d ['3']) with
      | true =>
        have e1 : fmtDigits d = '+' :: '9' :: '2' :: d := by
          rw [fmtDigits, if_neg (neTrueOfFalse h1), if_neg (neTrueOfFalse h2), if_pos h3]
        rw [e1]
        have e2 : (('+' :: '9' :: '2' :: d).filter (fun c => c.isDigit)) =
            '9' :: '2' :: d := by
          simp [List.filter_cons, hfd]
        rw [e2]
        rw [fmtDigits, if_pos (show listStartsWith ('9' :: '2' :: d) ['9', '2'] = true by
          simp [listStartsWith])]
      | false =>
        cases h4 : d.isEmpty with
        | true =>
          obtain rfl : d = [] := List.isEmpty_iff.mp h4
          rfl
        | false =>
          have h4' : (!d.isEmpty) = true := by rw [h4]; rfl
          have e1 : fmtDigits d = '+' :: d := by
            rw [fmtDigits, if_neg (neTrueOfFalse h1), if_neg (neTrueOfFalse h2),
              if_neg (neTrueOfFalse h3), if_pos h4']
          rw [e1]
          have e2 : (('+' :: d).filter (fun c => c.isDigit)) = d := by
            simp [List.filter_cons, hplus, hfd]
          rw [e2, e1]

/-- Claim C5: for every input string, the source formatPhoneNumber equals the
five-step normalization algorithm stated by the spec, and the five concrete
examples of the spec hold. -/
theorem formatPhoneNumber_matches_spec :
    (∀ s, formatPhoneNumber s = normalizeSpec s) ∧
    formatPhoneNumber "03001234567" = "+923001234567" ∧
    formatPhoneNumber "923001234567" = "+923001234567" ∧
    formatPhoneNumber "3001234567" = "+923001234567" ∧
    formatPhoneNumber "" = "" ∧
    formatPhoneNumber "12345" = "+12345" := by
  refine ⟨fun s => ?_, by decide, by decide, by decide, by decide, by decide⟩
  show String.mk (fmtDigits (digitsOf s)) = normalizeSpec s
  rw [normalizeSpec]
  rw [fmtDigits, digitsOf]
  split
  · rfl
  · split
    · rw [List.drop_one]
    · split
      · rfl
      · split
        · rfl
        · rfl

/-- Claim C10: phone normalization is idempotent. -/
theorem formatPhoneNumber_idem :
    ∀ s, formatPhoneNumber (formatPhoneNumber s) = formatPhoneNumber s := by
  intro s
  exact congrArg String.mk
    (fmtDigits_idem (digitsOf s) (fun c hc => (List.mem_filter.mp hc).2))

theorem freeformTranscript_ne_nil (raw : String) : freeformTranscript raw ≠ [] := by
  unfold freeformTranscript
  split
  · next h => exact List.ne_nil_of_length_pos h
  · exact List.cons_ne_nil _ _

theorem jsStartsWith_ne_empty {raw : String} {c : Char}
    (h : jsStartsWith raw c = true) : raw ≠ "" := by
  intro he
  subst he
  simp [jsStartsWith] at h

theorem guard_ne_empty {raw : String}
    (hg : (jsStartsWith raw '[' || jsStartsWith raw '\x7b') = true) : raw ≠ "" := by
  intro he
  subst he
  simp [jsStartsWith] at hg

/-- Claim C6 counterexample: on input with one leading space before the
bracket, the trimmed form starts with a bracket and the input parses as a JSON
array, yet the formatter does not return the parsed array: the guard in the
source tests the untrimmed string, so the input takes the freeform branch and
comes back as a single System entry. -/
theorem formatTranscript_trimmed_counterexample :
    jsStartsWith (jsTrim " [1]") '[' = true ∧
    jsonParse " [1]" = some (Json.arr [Json.num "1"]) ∧
    formatTranscript (some " [1]") = [transcriptEntry "System" "[1]"] ∧
    formatTranscript (some " [1]") ≠ [Json.num "1"] := by
  refine ⟨by decide, rfl, rfl, ?_⟩
  intro h
  rw [show formatTranscript (some " [1]") = [transcriptEntry "System" "[1]"] from rfl] at h
  have h1 : transcriptEntry "System" "[1]" = Json.num "1" := (List.cons.inj h).1
  rw [transcriptEntry] at h1
  exact Json.noConfusion h1

/-- Claim C6 (amended): for every raw transcript string whose UNTRIMMED form
starts with a bracket or brace and which parses as a JSON array, the formatter
returns the parsed array verbatim, same items in the same order, with no
further validation. With leading whitespace before the bracket the structured
parse is not attempted and the input takes the freeform branch instead. -/
theorem formatTranscript_structured_verbatim :
    ∀ (raw : String) (items : List Json),
    (jsStartsWith raw '[' || jsStartsWith raw '\x7b') = true →
    jsonParse raw = some (Json.arr items) →
    formatTranscript (some raw) = items := by
  intro raw items hg hp
  have hbeq : (raw == "") = false := beq_eq_false_iff_ne.mpr (guard_ne_empty hg)
  simp only [formatTranscript]
  rw [if_neg (neTrueOfFalse hbeq), if_pos hg, hp]
  rfl

/-- Claim C6 witness: the spec example returns the parsed entry list
unchanged. -/
theorem formatTranscript_structured_verbatim_witness :
    formatTranscript (some "[\x7b\"speaker\":\"Agent\",\"message\":\"hi\"\x7d]") =
      [transcriptEntry "Agent" "hi"] :=
  formatTranscript_structured_verbatim _ _ (by decide) rfl

/-- Claim C7: whenever the structured parse is attempted and fails, the
formatter raises nothing (it is a total function here by construction) and
returns the non-empty single-entry fallback rendering the raw input under a
System speaker. -/
theorem formatTranscript_parseFailure_fallback :
    ∀ raw : String,
    (jsStartsWith raw '[' || jsStartsWith raw '\x7b') = true →
    jsonParse raw = none →
    formatTranscript (some raw) = [transcriptEntry "System" raw] ∧
    formatTranscript (some raw) ≠ [] := by
  intro raw hg hp
  have hbeq : (raw == "") = false := beq_eq_false_iff_ne.mpr (guard_ne_empty hg)
  have he : formatTranscript (some raw) = [transcriptEntry "System" raw] := by
    simp only [formatTranscript]
    rw [if_neg (neTrueOfFalse hbeq), if_pos hg, hp]
    simp [structuredBranch, hbeq]
  exact ⟨he, by rw [he]; exact List.cons_ne_nil _ _⟩

/-- Claim C7 witness at the spec example of malformed structured input. -/
theorem formatTranscript_parseFailure_fallback_witness :
    formatTranscript (some "[not json") = [transcriptEntry "System" "[not json"] ∧
    formatTranscript (some "[not json") ≠ [] :=
  formatTranscript_parseFailure_fallback "[not json" (by decide) rfl

/-- Claim C9: for every non-null non-empty raw transcript, the result is empty
exactly when the raw string starts with a bracket or brace and parses as the
empty JSON array; in every other case at least one entry is produced. -/
theorem formatTranscript_empty_iff_emptyArray :
    ∀ raw : String, raw ≠ "" →
    (formatTranscript (some raw) = [] ↔
      ((jsStartsWith raw '[' || jsStartsWith raw '\x7b') = true ∧
        jsonParse raw = some (Json.arr []))) := by
  intro raw hne
  have hbeq : (raw == "") = false := beq_eq_false_iff_ne.mpr hne
  simp only [formatTranscript]
  rw [if_neg (neTrueOfFalse hbeq)]
  cases hg : (jsStartsWith raw '[' || jsStartsWith raw '\x7b') with
  | false =>
    rw [if_neg Bool.false_ne_true]
    constructor
    · intro h; exact absurd h (freeformTranscript_ne_nil raw)
    · rintro ⟨h1, -⟩; exact absurd h1 Bool.false_ne_true
  | true =>
    rw [if_pos rfl]
    cases hp : jsonParse raw with
    | none =>
      constructor
      · intro h
        rw [structuredBranch] at h
        exact absurd h (List.cons_ne_nil _ _)
      · rintro ⟨-, h2⟩; exact Option.noConfusion h2
    | some v =>
      cases v with
      | arr items =>
        constructor
        · intro h
          refine ⟨rfl, ?_⟩
          have hit : items = [] := h
          rw [hit]
        · rintro ⟨-, h2⟩
          have h3 : Json.arr items = Json.arr [] := Option.some.inj h2
          have hit : items = [] := Json.arr.inj h3
          show structuredBranch raw (some (Json.arr items)) = []
          rw [hit]
          rfl
      | null =>
        constructor
        · intro h; exact absurd h (freeformTranscript_ne_nil raw)
        · rintro ⟨-, h2⟩; exact Json.noConfusion (Option.some.inj h2)
      | bool b =>
        constructor
        · intro h; exact absurd h (freeformTranscript_ne_nil raw)
        · rintro ⟨-, h2⟩; exact Json.noConfusion (Option.some.inj h2)
      | num lexeme =>
        constructor
        · intro h; exact absurd h (freeformTranscript_ne_nil raw)
        · rintro ⟨-, h2⟩; exact Json.noConfusion (Option.some.inj h2)
      | str s =>
        constructor
        · intro h; exact absurd h (freeformTranscript_ne_nil raw)
        · rintro ⟨-, h2⟩; exact Json.noConfusion (Option.some.inj h2)
      | obj fields =>
        constructor
        · intro h; exact absurd h (freeformTranscript_ne_nil raw)
        · rintro ⟨-, h2⟩; exact Json.noConfusion (Option.some.inj h2)

/-- Claim C9 witness: the empty JSON array input reaches the empty result. -/
theorem formatTranscript_empty_iff_emptyArray_witness :
    formatTranscript (some "[]") = [] :=
  (formatTranscript_empty_iff_emptyArray "[]" (by decide)).mpr ⟨by decide, rfl⟩

theorem setKey_ne_nil (m : List (String × Json)) (k : String) (v : Json) :
    setKey m k v ≠ [] := by
  cases m with
  | nil => exact List.cons_ne_nil _ _
  | cons p rest =>
    rw [setKey]
    split
    · exact List.cons_ne_nil _ _
    · exact List.cons_ne_nil _ _

theorem hasKey_setKey (m : List (String × Json)) (k : String) (v : Json) (q : String) :
    hasKey (setKey m k v) q = (hasKey m q || k == q) := by
  induction m with
  | nil => simp [setKey, hasKey]
  | cons p rest ih =>
    rw [setKey]
    by_cases hp : (p.1 == k) = true
    · rw [if_pos hp]
      have hpe : p.1 = k := eq_of_beq hp
      show ((k == q) || hasKey rest q) = (((p.1 == q) || hasKey rest q) || (k == q))
      rw [hpe]
      cases hkq : (k == q) <;> cases hr : hasKey rest q <;> rfl
    · rw [if_neg hp]
      show ((p.1 == q) || hasKey (setKey rest k v) q) = (((p.1 == q) || hasKey rest q) || (k == q))
      rw [ih, Bool.or_assoc]

theorem jsGet_setKey (m : List (String × Json)) (k : String) (v : Json) :
    jsGet (setKey m k v) k = some v := by
  induction m with
  | nil =>
    show jsGet [(k, v)] k = some v
    simp [jsGet, List.find?]
  | cons p rest ih =>
    rw [setKey]
    by_cases hp : (p.1 == k) = true
    · rw [if_pos hp]
      simp [jsGet, List.find?]
    · rw [if_neg hp]
      show (((p :: setKey rest k v).find? (fun q => q.1 == k)).map (fun q => q.2)) = some v
      rw [List.find?_cons_of_neg (p := fun q => q.1 == k) (setKey rest k v) hp]
      exact ih

/-- Claim C2 counterexample: the degraded result produced when the detail
fetch fails has no driver-name (nor load-number) entry, and the result
assembled with no analysis and no processed transcript has no call-status
entry: its keys are exactly Driver Name, Load Number and Phone Number. -/
theorem keyInformation_minimum_counterexample :
    hasKey (fetchCallResults (fun _ => 0) "2025-01-01T00:00:00Z" "c1" driverAlice
        none none).keyInformation "Driver Name" = false ∧
    hasKey (extractKeyInformation none none driverAlice) "Call Status" = false ∧
    extractKeyInformation none none driverAlice =
      [("Driver Name", Json.str "Alice"), ("Load Number", Json.str "LD-7"),
       ("Phone Number", Json.str "+923001234567")] :=
  ⟨rfl, rfl, rfl⟩

/-- Claim C2 (amended): every keyInformation assembled by
extractKeyInformation contains driver-name, load-number and phone-number
entries, for arbitrary analysis and processed-transcript data; a call-status
entry is present only when those inputs supply one. The degraded result of a
failed detail fetch instead carries exactly a Call Status entry and an Error
entry, with no driver fields. -/
theorem keyInformation_contents :
    (∀ ca pt d, hasKey (extractKeyInformation ca pt d) "Driver Name" = true ∧
      hasKey (extractKeyInformation ca pt d) "Load Number" = true ∧
      hasKey (extractKeyInformation ca pt d) "Phone Number" = true) ∧
    (∀ dateMs nowIso callId d tr,
      (fetchCallResults dateMs nowIso callId d none tr).keyInformation =
        [("Call Status", Json.str "Completed"),
         ("Error", Json.str "Unable to fetch detailed results")]) := by
  constructor
  · intro ca pt d
    have hpos : 0 < (driverStep d (analysisStep ca (transcriptStep pt []))).length :=
      List.length_pos.mpr (setKey_ne_nil _ _ _)
    refine ⟨?_, ?_, ?_⟩ <;>
    · rw [extractKeyInformation, if_pos hpos, driverStep]
      simp [hasKey_setKey]
  · intro dateMs nowIso callId d tr
    rfl

/-- Claim C3 counterexample: the analysis entry with key sentiment title-cases
to Sentiment, which step 1 already set from the processed transcript to
Positive; after step 2 the stored value is the analysis value Negative, so the
later write DID overwrite the earlier one. -/
theorem keyInformation_overwrite_counterexample :
    titleCaseKey "sentiment" = "Sentiment" ∧
    jsGet (transcriptStep (some ptPositive) []) "Sentiment" = some (Json.str "Positive") ∧
    jsGet (extractKeyInformation (some caNegative) (some ptPositive) driverAlice) "Sentiment" =
      some (Json.str "Negative") :=
  ⟨rfl, rfl, rfl⟩

/-- Claim C3 (amended): a later write to the same literal key overwrites the
earlier value — property assignment is last-write-wins — so an analysis field
whose title-cased key collides with a processed-transcript key replaces its
value, as the sentiment example shows; the driver-info keys, written last, can
overwrite any earlier key. -/
theorem keyInformation_last_write_wins :
    (∀ (m : List (String × Json)) (k : String) (v : Json),
      jsGet (setKey m k v) k = some v) ∧
    jsGet (extractKeyInformation (some caNegative) (some ptPositive) driverAlice) "Sentiment" =
      some (Json.str "Negative") :=
  ⟨jsGet_setKey, rfl⟩

theorem pollGo_spec (status : Nat → Option String) :
    ∀ fuel attempts, attempts + fuel = maxAttempts → 0 < fuel →
    (∀ t, attempts < t → t ≤ maxAttempts → (status t).isSome = true) →
    (pollGo status attempts fuel).2 = 1 ∧
    1 ≤ (pollGo status attempts fuel).1 ∧
    attempts + (pollGo status attempts fuel).1 ≤ maxAttempts ∧
    (∀ t s, attempts < t → t < attempts + (pollGo status attempts fuel).1 →
      status t = some s → isTerminalStatus s = false) ∧
    (attempts + (pollGo status attempts fuel).1 < maxAttempts →
      ∃ s, status (attempts + (pollGo status attempts fuel).1) = some s ∧
        isTerminalStatus s = true) := by
  intro fuel
  induction fuel with
  | zero =>
    intro attempts hsum hpos hsome
    exact absurd hpos (by omega)
  | succ n ih =>
    intro attempts hsum hpos hsome
    have hs : (status (attempts + 1)).isSome = true :=
      hsome (attempts + 1) (by omega) (by omega)
    obtain ⟨s, hseq⟩ := Option.isSome_iff_exists.mp hs
    cases hterm : isTerminalStatus s with
    | true =>
      have e : pollGo status attempts (n + 1) = (1, 1) := by
        simp [pollGo, hseq, hterm]
      rw [e]
      refine ⟨rfl, Nat.le_refl 1, ?_, ?_, ?_⟩
      · show attempts + 1 ≤ maxAttempts
        omega
      · intro t s1 ht1 ht2 hts
        have ht2' : t < attempts + 1 := ht2
        omega
      · intro hlt
        exact ⟨s, hseq, hterm⟩
    | false =>
      by_cases hmax : maxAttempts ≤ attempts + 1
      · have e : pollGo status attempts (n + 1) = (1, 1) := by
          simp [pollGo, hseq, hterm, hmax]
        rw [e]
        refine ⟨rfl, Nat.le_refl 1, ?_, ?_, ?_⟩
        · show attempts + 1 ≤ maxAttempts
          omega
        · intro t s1 ht1 ht2 hts
          have ht2' : t < attempts + 1 := ht2
          omega
        · intro hlt
          have hlt' : attempts + 1 < maxAttempts := hlt
          omega
      · have hrec := ih (attempts + 1) (by omega) (by omega)
          (fun t ht1 ht2 => hsome t (by omega) ht2)
        obtain ⟨ih1, ih2, ih3, ih4, ih5⟩ := hrec
        have e : pollGo status attempts (n + 1) =
            ((pollGo status (attempts + 1) n).1 + 1, (pollGo status (attempts + 1) n).2) := by
          simp [pollGo, hseq, hterm, hmax]
        rw [e]
        refine ⟨ih1, ?_, ?_, ?_, ?_⟩
        · show 1 ≤ (pollGo status (attempts + 1) n).1 + 1
          omega
        · show attempts + ((pollGo status (attempts + 1) n).1 + 1) ≤ maxAttempts
          omega
        · intro t s1 ht1 ht2 hts
          have ht2' : t < attempts + ((pollGo status (attempts + 1) n).1 + 1) := ht2
          by_cases hteq : t = attempts + 1
          · subst hteq
            rw [hseq] at hts
            have hss : s = s1 := Option.some.inj hts
            rw [← hss]
            exact hterm
          · exact ih4 t s1 (by omega) (by omega) hts
        · intro hlt
          have hlt' : attempts + ((pollGo status (attempts + 1) n).1 + 1) < maxAttempts := hlt
          have hlt2 : (attempts + 1) + (pollGo status (attempts + 1) n).1 < maxAttempts := by
            omega
          obtain ⟨s1, h1, h2⟩ := ih5 hlt2
          show ∃ s2, status (attempts + ((pollGo status (attempts + 1) n).1 + 1)) = some s2 ∧
            isTerminalStatus s2 = true
          have hidx : attempts + ((pollGo status (attempts + 1) n).1 + 1) =
              (attempts + 1) + (pollGo status (attempts + 1) n).1 := by omega
          rw [hidx]
          exact ⟨s1, h1, h2⟩

/-- Claim C1: when every status request succeeds, the poll loop fires at most
maxAttempts (sixty) ticks at pollIntervalMs (five-second) intervals, performs
exactly one fetchCallResults, stops at the first tick whose status is terminal
(every earlier tick was non-terminal, and an early stop happens only at a
terminal tick), and when no tick is terminal it stops only at the ceiling with
one best-effort fetch; the loop function returns, so no further ticks fire
after either stopping condition. -/
theorem pollLoop_bounded_single_fetch :
    ∀ status : Nat → Option String,
    (∀ t, 1 ≤ t → t ≤ maxAttempts → (status t).isSome = true) →
    (pollForCallCompletion status).2 = 1 ∧
    1 ≤ (pollForCallCompletion status).1 ∧
    (pollForCallCompletion status).1 ≤ maxAttempts ∧
    (∀ t s, 1 ≤ t → t < (pollForCallCompletion status).1 → status t = some s →
      isTerminalStatus s = false) ∧
    ((pollForCallCompletion status).1 < maxAttempts →
      ∃ s, status ((pollForCallCompletion status).1) = some s ∧
        isTerminalStatus s = true) ∧
    maxAttempts = 60 ∧ pollIntervalMs = 5000 := by
  intro status h
  have hg := pollGo_spec status maxAttempts 0 (by omega) (by decide) h
  obtain ⟨h1, h2, h3, h4, h5⟩ := hg
  simp only [Nat.zero_add] at h3 h4 h5
  exact ⟨h1, h2, h3, h4, h5, rfl, rfl⟩

/-- Claim C1 witness: a backend that always reports an active status satisfies
the hypotheses; exactly one fetch happens within the tick bound. -/
theorem pollLoop_bounded_single_fetch_witness :
    (pollForCallCompletion (fun _ => some "active")).2 = 1 ∧
    (pollForCallCompletion (fun _ => some "active")).1 ≤ maxAttempts :=
  ⟨(pollLoop_bounded_single_fetch (fun _ => some "active") (fun _ _ _ => rfl)).1,
   (pollLoop_bounded_single_fetch (fun _ => some "active") (fun _ _ _ => rfl)).2.2.1⟩

/-- Claim C4 counterexample: after a second successful startTestCall, a tick
of the first call poll loop still fires and issues a status request for the
first call id, because startTestCall clears no prior timer. -/
theorem secondStart_firstLoopTick_counterexample :
    (tickStep (startCallStep (startCallStep { loops := [] } "call-1") "call-2") 0
      "active").2 = some "call-1" :=
  rfl

/-- Claim C4 (amended): starting a new call does NOT cancel or replace any
prior poll timer: the new loop is appended after the existing ones, and every
previously scheduled loop ticks exactly as it would have without the new
start; a loop stops only through its own terminal status or attempt
ceiling. -/
theorem startCall_leaves_prior_loops :
    ∀ (s : SessionTimers) (newId : String),
      (startCallStep s newId).loops =
        s.loops ++ [{ callId := newId, attempts := 0, cleared := false }] ∧
      ∀ i st, i < s.loops.length →
        (tickStep (startCallStep s newId) i st).2 = (tickStep s i st).2 := by
  intro s newId
  refine ⟨rfl, ?_⟩
  intro i st hi
  have hgq : (startCallStep s newId).loops[i]? = s.loops[i]? := by
    show (s.loops ++ [_])[i]? = s.loops[i]?
    exact List.getElem?_append_left hi
  rw [tickStep, tickStep, hgq]
  cases hq : s.loops[i]? with
  | none => rfl
  | some loop =>
    by_cases hc : loop.cleared = true
    · simp [hc]
    · simp [hc]

/-- Claim C4 witness: with the loop of call-1 already scheduled, starting
call-2 leaves the tick of loop zero unchanged. -/
theorem startCall_leaves_prior_loops_witness :
    (tickStep (startCallStep (startCallStep { loops := [] } "call-1") "call-2") 0 "active").2 =
      (tickStep (startCallStep { loops := [] } "call-1") 0 "active").2 :=
  (startCall_leaves_prior_loops (startCallStep { loops := [] } "call-1") "call-2").2 0 "active"
    (by decide)

/-- Claim C8: the id a manual fetch uses is the trimmed manual id when
non-empty, otherwise the last-started call id (this is callIdToFetch); and
whenever the status check for that id succeeds with a non-terminal status, the
operation issues exactly one status request — zero detail and zero transcript
requests — and reports the still-active status to the caller. -/
theorem manualFetch_still_active :
    ∀ (manualCallId currentCallId : String) (statusOf : String → Option String)
      (detailOk : String → Bool) (st : String),
    callIdToFetch manualCallId currentCallId ≠ "" →
    statusOf (callIdToFetch manualCallId currentCallId) = some st →
    isTerminalStatus st = false →
    manualFetchResults manualCallId currentCallId statusOf detailOk =
      ([Request.statusReq (callIdToFetch manualCallId currentCallId)],
       ManualFetchOutcome.stillActive (callIdToFetch manualCallId currentCallId) st) := by
  intro m c statusOf detailOk st hne hst hterm
  have hbeq : (callIdToFetch m c == "") = false := beq_eq_false_iff_ne.mpr hne
  rw [manualFetchResults, if_neg (neTrueOfFalse hbeq), hst,
    manualFetchAfterStatus, if_neg (neTrueOfFalse hterm)]

/-- Claim C8 witness: a padded manual id is trimmed, selected over the absent
current call id, and an active status yields only the status request and the
still-active report. -/
theorem manualFetch_still_active_witness :
    manualFetchResults "  call-1  " "" (fun _ => some "active") (fun _ => true) =
      ([Request.statusReq "call-1"], ManualFetchOutcome.stillActive "call-1" "active") :=
  manualFetch_still_active "  call-1  " "" (fun _ => some "active") (fun _ => true) "active"
    (by decide) rfl rfl

end VoiceAgent
